import Mathlib

/-!
Verification development for the technical-indicator and signal-classification
engine of `tools/tech_analysis.py` (class `TechAnalyst` and the wrapping
`TechAnalystTool._run`).

Modelling conventions (shallow embedding):
* Prices and volumes are rationals (`ℚ`).  A pandas cell that may be `NaN`
  is `Option ℚ`, with `none` playing the role of `NaN`; following IEEE-754
  float semantics, every ordered comparison against `NaN` is false
  (`nlt` / `ngt` below).
* A pandas column either exists in the working frame or it does not; column
  existence is recorded by the `has*` flags of `Frame`.  The cells of a
  column that was never created are `none` and are ignored by `dropna`.
* `ℚ` has no square root, so the two places where the source takes a square
  root (the Bollinger band standard deviation and the annualisation factor
  `sqrt(252)` of the rolling volatility) use `Rat.sqrt` as a computable
  stand-in.  No theorem below depends on the numeric value of those cells,
  only on whether they are defined (`some`) or `NaN`/absent (`none`), and
  taking a square root preserves definedness.
-/

set_option maxRecDepth 1000000

namespace QuantCrew

/-- One trading bar of the raw history handed to the engine
(one row of the `yfinance` OHLCV frame). -/
structure Bar where
  date : Int
  openPrice : ℚ
  highPrice : ℚ
  lowPrice : ℚ
  close : ℚ
  volume : ℚ
deriving Repr, DecidableEq

/-- Comparison `a < b` under float-`NaN` semantics: `none` models `NaN`,
and any comparison involving `NaN` is false. -/
def nlt : Option ℚ → Option ℚ → Bool
  | some a, some b => decide (a < b)
  | _, _ => false

/-- Comparison `a > b` under float-`NaN` semantics. -/
def ngt (a b : Option ℚ) : Bool := nlt b a

/-- One row of the analyst's working dataframe after
`fetch_and_process_data` has added the indicator columns.  Field names
follow the source's column names: `sma200` is `trend_sma_200`, `macdDiff`
is `trend_macd_diff`, `bbh`/`bbl`/`bbm`/`bbhi` are the `volatility_bb*`
columns, `rsi` is `momentum_rsi`, `obv` is `volume_obv`, `volat` and `mom`
are the `volatility` and `momentum` columns.  The untouched raw columns
other than `Close` and `Volume` (Open/High/Low/...) are always defined for
any input the model receives and never constrain `dropna`, so they are not
carried. -/
structure Row where
  close : ℚ
  volume : ℚ
  sma200 : Option ℚ
  sma50 : Option ℚ
  sma20 : Option ℚ
  macd : Option ℚ
  macdSignal : Option ℚ
  macdDiff : Option ℚ
  macd20 : Option ℚ
  macdSignal20 : Option ℚ
  macdDiff20 : Option ℚ
  bbhi : Option ℚ
  bbh : Option ℚ
  bbl : Option ℚ
  bbm : Option ℚ
  rsi : Option ℚ
  obv : Option ℚ
  volat : Option ℚ
  mom : Option ℚ
deriving Repr, DecidableEq

/-- The analyst's working dataframe: which indicator columns exist
(`'col' in self.df.columns`), plus the rows.  One flag per group of
columns that the source creates under a single `if len(df) >= _` guard. -/
structure Frame where
  hasSma200 : Bool
  hasSma50 : Bool
  hasSma20 : Bool
  hasMacd : Bool
  hasMacd20 : Bool
  hasBb : Bool
  hasRsi : Bool
  hasObv : Bool
  rows : List Row
deriving Repr, DecidableEq

/-- The string returned by `analyze_trend` when `trend_sma_50` or
`trend_sma_200` is missing. -/
def trendInsufficient : String := "Not enough data for trend analysis"

/-- `TechAnalyst.analyze_trend`.  Returns `none` exactly when the method
would raise (`iloc[-1]` on an empty frame, reached only when both SMA
columns exist). -/
def analyze_trend (f : Frame) : Option String :=
  if !(f.hasSma50 && f.hasSma200) then some trendInsufficient
  else
    f.rows.getLast?.map fun r =>
      let price : Option ℚ := some r.close
      if ngt price r.sma50 && ngt r.sma50 r.sma200 then "Strong Uptrend"
      else if ngt price r.sma50 && nlt r.sma50 r.sma200 then "Potential Uptrend"
      else if nlt price r.sma50 && nlt r.sma50 r.sma200 then "Strong Downtrend"
      else if nlt price r.sma50 && ngt r.sma50 r.sma200 then "Potential Downtrend"
      else "Neutral"

/-- The string returned by `generate_signal` when `momentum_rsi`,
`trend_macd_diff` or `volatility_bbl` is missing. -/
def signalInsufficient : String := "Not enough data for signal generation"

/-- `TechAnalyst.generate_signal`.  The source tests the presence of the
`momentum_rsi`, `trend_macd_diff` and `volatility_bbl` columns; in the
frame model `volatility_bbl` exists iff the whole Bollinger group does
(`hasBb`).  Returns `none` exactly when the method would raise
(`iloc[-1]` on an empty frame). -/
def generate_signal (f : Frame) : Option String :=
  if !(f.hasRsi && f.hasMacd && f.hasBb) then some signalInsufficient
  else
    f.rows.getLast?.map fun r =>
      let price : Option ℚ := some r.close
      if nlt r.rsi (some 30) && ngt r.macdDiff (some 0) && nlt price r.bbl then
        "Strong Buy"
      else if nlt r.rsi (some 40) && ngt r.macdDiff (some 0) then "Buy"
      else if ngt r.rsi (some 70) && nlt r.macdDiff (some 0) && ngt price r.bbh then
        "Strong Sell"
      else if ngt r.rsi (some 60) && nlt r.macdDiff (some 0) then "Sell"
      else "Hold"

/-- A row with no indicator values, used to build small concrete frames. -/
def blankRow : Row :=
  { close := 0, volume := 0, sma200 := none, sma50 := none, sma20 := none,
    macd := none, macdSignal := none, macdDiff := none, macd20 := none,
    macdSignal20 := none, macdDiff20 := none, bbhi := none, bbh := none,
    bbl := none, bbm := none, rsi := none, obv := none, volat := none,
    mom := none }

/-- A one-row frame carrying only the trend inputs (`Close`,
`trend_sma_50`, `trend_sma_200`). -/
def trendFrame (price a b : ℚ) : Frame :=
  { hasSma200 := true, hasSma50 := true, hasSma20 := false, hasMacd := false,
    hasMacd20 := false, hasBb := false, hasRsi := false, hasObv := false,
    rows := [{ blankRow with close := price, sma50 := some a, sma200 := some b }] }

/-- A one-row frame carrying only the signal inputs (`Close`,
`momentum_rsi`, `trend_macd_diff`, `volatility_bbl`, `volatility_bbh`). -/
def signalFrame (price rsi m bl bh : ℚ) : Frame :=
  let r : Row :=
    { blankRow with close := price, rsi := some rsi, macdDiff := some m,
                    bbl := some bl, bbh := some bh }
  { hasSma200 := false, hasSma50 := false, hasSma20 := false, hasMacd := true,
    hasMacd20 := false, hasBb := true, hasRsi := true, hasObv := false,
    rows := [r] }

/-! ### Indicator pipeline (`fetch_and_process_data`, lines 78-131)

Each indicator cell is a function of the close (and volume) series and the
row index `i`; a cell is `none` exactly where the corresponding pandas
column holds `NaN`.  The `if len(df) >= _` guards of the source control
column *existence* (the frame flags); for every column the cell formulas
below agree with the values the guarded assignments produce, because an
index condition such as `w ≤ i + 1` is unsatisfiable for `i < len df < w`. -/

/-- The sublist `xs[lo], xs[lo+1], ..., xs[lo+len-1]` (0 outside range). -/
def windowList (xs : List ℚ) (lo len : Nat) : List ℚ :=
  (List.range len).map fun k => xs.getD (lo + k) 0

/-- `rolling(w, min_periods=w).mean()` of a fully defined series
(`ta.trend.SMAIndicator` with `fillna=False`). -/
def smaCell (w : Nat) (cs : List ℚ) (i : Nat) : Option ℚ :=
  if w ≤ i + 1 then some ((windowList cs (i + 1 - w) w).sum / (w : ℚ)) else none

/-- `ewm(span, adjust=False).mean()` recursion over a fully defined series:
`y 0 = x 0`, `y (t+1) = (1-α) * y t + α * x (t+1)` with `α = 2/(span+1)`. -/
def emaVal (span : Nat) (cs : List ℚ) : Nat → ℚ
  | 0 => cs.getD 0 0
  | i + 1 => (1 - 2 / ((span : ℚ) + 1)) * emaVal span cs i
      + 2 / ((span : ℚ) + 1) * cs.getD (i + 1) 0

/-- MACD line: fast EMA minus slow EMA. -/
def macdVal (fast slow : Nat) (cs : List ℚ) (i : Nat) : ℚ :=
  emaVal fast cs i - emaVal slow cs i

/-- MACD line cell: NaN until `min_periods = slow` observations. -/
def macdCell (fast slow : Nat) (cs : List ℚ) (i : Nat) : Option ℚ :=
  if slow ≤ i + 1 then some (macdVal fast slow cs i) else none

/-- Signal-line recursion: `ewm(span=sign, adjust=False)` applied to the
MACD line, whose first defined entry is at index `slow - 1` (pandas starts
the recursion at the first non-`NaN` observation). -/
def macdSignalVal (fast slow sign : Nat) (cs : List ℚ) : Nat → ℚ
  | 0 => macdVal fast slow cs (slow - 1)
  | i + 1 =>
      if i + 1 ≤ slow - 1 then macdVal fast slow cs (slow - 1)
      else (1 - 2 / ((sign : ℚ) + 1)) * macdSignalVal fast slow sign cs i
        + 2 / ((sign : ℚ) + 1) * macdVal fast slow cs (i + 1)

/-- Signal-line cell: `NaN` until `sign` defined MACD values have been
seen, i.e. until index `slow - 1 + sign - 1`. -/
def macdSignalCell (fast slow sign : Nat) (cs : List ℚ) (i : Nat) : Option ℚ :=
  if slow - 1 + sign ≤ i + 1 then some (macdSignalVal fast slow sign cs i) else none

/-- `macd_diff` cell: MACD line minus signal line, defined where the
signal line is. -/
def macdDiffCell (fast slow sign : Nat) (cs : List ℚ) (i : Nat) : Option ℚ :=
  if slow - 1 + sign ≤ i + 1 then
    some (macdVal fast slow cs i - macdSignalVal fast slow sign cs i)
  else none

/-- `close.diff(1)` at index `i` (only used for `i ≥ 1`). -/
def diffAt (cs : List ℚ) (i : Nat) : ℚ := cs.getD i 0 - cs.getD (i - 1) 0

/-- `ewm(alpha=α, adjust=False).mean()` of a gain/loss series whose index-0
entry is `NaN` (`close.diff()`), so the recursion starts at index 1. -/
def wilderAvg (α : ℚ) (g : Nat → ℚ) : Nat → ℚ
  | 0 => 0
  | i + 1 => if i = 0 then g 1 else (1 - α) * wilderAvg α g i + α * g (i + 1)

/-- `ta.momentum.RSIIndicator` cell.  `NaN` until `min_periods = w`
non-`NaN` differences (index `w`); thereafter `100 - 100/(1+rs)` with the
float conventions `gain/0 = inf` (so RSI `100`) and `0/0 = NaN`. -/
def rsiCell (w : Nat) (cs : List ℚ) (i : Nat) : Option ℚ :=
  if w ≤ i then
    let G := wilderAvg (1 / (w : ℚ)) (fun j => max (diffAt cs j) 0) i
    let L := wilderAvg (1 / (w : ℚ)) (fun j => max (-diffAt cs j) 0) i
    if L = 0 && G = 0 then none
    else if L = 0 then some 100
    else some (100 - 100 / (1 + G / L))
  else none

/-- `ta.volume.OnBalanceVolumeIndicator`: cumulative sum of the volume,
signed negatively exactly where the close strictly decreased (the `NaN`
of `close.shift(1)` at index 0 compares false, giving `+volume`). -/
def obvVal (cs vs : List ℚ) : Nat → ℚ
  | 0 => vs.getD 0 0
  | i + 1 => obvVal cs vs i +
      (if cs.getD (i + 1) 0 < cs.getD i 0 then -(vs.getD (i + 1) 0) else vs.getD (i + 1) 0)

/-- Population variance (`ddof=0`, used by `ta`'s Bollinger bands). -/
def var0 (xs : List ℚ) : ℚ :=
  ((xs.map fun x => (x - xs.sum / (xs.length : ℚ)) ^ 2).sum) / (xs.length : ℚ)

/-- Sample variance (`ddof=1`, the pandas `rolling().std()` default used
for the volatility column). -/
def var1 (xs : List ℚ) : ℚ :=
  ((xs.map fun x => (x - xs.sum / (xs.length : ℚ)) ^ 2).sum) / ((xs.length : ℚ) - 1)

/-- Bollinger middle band: `rolling(20).mean()` of the close. -/
def bbmCell (cs : List ℚ) (i : Nat) : Option ℚ :=
  if 20 ≤ i + 1 then some ((windowList cs (i + 1 - 20) 20).sum / 20) else none

/-- Bollinger upper band: mean plus 2 population standard deviations
(`Rat.sqrt` stands in for the real square root; only definedness of this
cell is used by any theorem). -/
def bbhCell (cs : List ℚ) (i : Nat) : Option ℚ :=
  if 20 ≤ i + 1 then
    let win := windowList cs (i + 1 - 20) 20
    some (win.sum / 20 + 2 * Rat.sqrt (var0 win))
  else none

/-- Bollinger lower band: mean minus 2 population standard deviations. -/
def bblCell (cs : List ℚ) (i : Nat) : Option ℚ :=
  if 20 ≤ i + 1 then
    let win := windowList cs (i + 1 - 20) 20
    some (win.sum / 20 - 2 * Rat.sqrt (var0 win))
  else none

/-- `bollinger_hband_indicator`: `np.where(close > hband, 1.0, 0.0)` — a
`NaN` upper band compares false, so this cell is never `NaN`. -/
def bbhiCell (cs : List ℚ) (i : Nat) : Option ℚ :=
  some (if 20 ≤ i + 1 &&
      nlt (bbhCell cs i) (some (cs.getD i 0)) then 1 else 0)

/-- `close.pct_change()` at index `i` (only used for `i ≥ 1`; for valid
input the closes are positive, so the division is by a nonzero number). -/
def pctAt (cs : List ℚ) (i : Nat) : ℚ :=
  (cs.getD i 0 - cs.getD (i - 1) 0) / cs.getD (i - 1) 0

/-- The `volatility` column: 20-bar rolling sample standard deviation of
the daily percent change, annualised by `sqrt(252)`.  `pct_change` is
`NaN` at index 0, so the first full window ends at index 20.  When
`len(df) < 20` the source assigns `np.nan` to the whole column; the index
condition `20 ≤ i` is then unsatisfiable, so this formula also covers that
branch. -/
def volCell (cs : List ℚ) (i : Nat) : Option ℚ :=
  if 20 ≤ i then
    some (Rat.sqrt (var1 ((List.range 20).map fun k => pctAt cs (i - 19 + k))) *
      Rat.sqrt 252)
  else none

/-- The `momentum` column: `close - close.shift(20)` (all-`NaN` when
`len(df) < 20`, covered as for `volCell`). -/
def momCell (cs : List ℚ) (i : Nat) : Option ℚ :=
  if 20 ≤ i then some (cs.getD i 0 - cs.getD (i - 20) 0) else none

/-- Row `i` of the augmented dataframe. -/
def mkRow (cs vs : List ℚ) (i : Nat) : Row :=
  { close := cs.getD i 0, volume := vs.getD i 0,
    sma200 := smaCell 200 cs i, sma50 := smaCell 50 cs i, sma20 := smaCell 20 cs i,
    macd := macdCell 12 26 cs i, macdSignal := macdSignalCell 12 26 9 cs i,
    macdDiff := macdDiffCell 12 26 9 cs i,
    macd20 := macdCell 10 20 cs i, macdSignal20 := macdSignalCell 10 20 9 cs i,
    macdDiff20 := macdDiffCell 10 20 9 cs i,
    bbhi := bbhiCell cs i, bbh := bbhCell cs i, bbl := bblCell cs i,
    bbm := bbmCell cs i,
    rsi := rsiCell 14 cs i, obv := some (obvVal cs vs i),
    volat := volCell cs i, mom := momCell cs i }

/-- The augmented dataframe before `dropna()`: the column flags follow the
source's `if len(df) >= _` guards; `volume_obv` exists because the raw
history always carries a `Volume` column. -/
def buildFrame (bars : List Bar) : Frame :=
  let cs := bars.map Bar.close
  let vs := bars.map Bar.volume
  let N := bars.length
  { hasSma200 := decide (200 ≤ N), hasSma50 := decide (50 ≤ N),
    hasSma20 := decide (20 ≤ N), hasMacd := decide (26 ≤ N),
    hasMacd20 := decide (20 ≤ N), hasBb := decide (20 ≤ N),
    hasRsi := decide (14 ≤ N), hasObv := true,
    rows := (List.range N).map (mkRow cs vs) }

/-- A row survives `dropna()` iff every *existing* column is non-`NaN` at
it.  (`Close`/`Volume` and the other raw columns are always defined.) -/
def rowComplete (f : Frame) (r : Row) : Bool :=
  (!f.hasSma200 || r.sma200.isSome) && (!f.hasSma50 || r.sma50.isSome) &&
  (!f.hasSma20 || r.sma20.isSome) &&
  (!f.hasMacd || (r.macd.isSome && r.macdSignal.isSome && r.macdDiff.isSome)) &&
  (!f.hasMacd20 || (r.macd20.isSome && r.macdSignal20.isSome && r.macdDiff20.isSome)) &&
  (!f.hasBb || (r.bbhi.isSome && r.bbh.isSome && r.bbl.isSome && r.bbm.isSome)) &&
  (!f.hasRsi || r.rsi.isSome) && (!f.hasObv || r.obv.isSome) &&
  r.volat.isSome && r.mom.isSome

/-- `self.df = df.dropna()` (line 127): drop every incomplete row. -/
def dropna (f : Frame) : Frame := { f with rows := f.rows.filter (rowComplete f) }

/-- The working frame that `fetch_and_process_data` stores in `self.df`. -/
def workingFrame (bars : List Bar) : Frame := dropna (buildFrame bars)

/-- `fetch_and_process_data`, with the `yfinance` fetch replaced by the
`history` argument (the fetch is the out-of-scope collaborator).  The only
failure the source produces is the empty-history `ValueError`, re-wrapped
by the method's own `except` clause into the message built here; no check
of prices, volumes or date ordering is performed. -/
def fetch_and_process_data (ticker period : String) (history : List Bar) :
    Except String Frame :=
  if history.isEmpty then
    .error ("Error processing data for " ++ ticker ++ ": No data found for ticker "
      ++ ticker ++ " and period " ++ period)
  else .ok (workingFrame history)

/-! ### Extremum detector (`scipy.signal.find_peaks` with `distance=20`) -/

/-- Start index of the maximal constant run of `xs` containing `i`. -/
def runStart (xs : List ℚ) (i : Nat) : Nat :=
  i + 1 - ((xs.take (i + 1)).reverse.takeWhile (fun v => decide (v = xs.getD i 0))).length

/-- Stop index of the maximal constant run of `xs` containing `i`. -/
def runStop (xs : List ℚ) (i : Nat) : Nat :=
  i + ((xs.drop i).takeWhile (fun v => decide (v = xs.getD i 0))).length - 1

/-- `scipy.signal._local_maxima_1d` emits, for every maximal constant run
`xs[l..r]` that has a strictly smaller neighbour on each side (which
excludes runs touching either end of the series), the midpoint
`(l + r) / 2`.  This predicate recognises exactly those midpoints. -/
def isLocalMax (xs : List ℚ) (i : Nat) : Bool :=
  let v := xs.getD i 0
  let l := runStart xs i
  let r := runStop xs i
  decide (1 ≤ l) && decide (r + 1 < xs.length) &&
  decide (xs.getD (l - 1) 0 < v) && decide (xs.getD (r + 1) 0 < v) &&
  decide (i = (l + r) / 2)

/-- All candidate peaks, in ascending index order. -/
def localMaxima (xs : List ℚ) : List Nat :=
  (List.range xs.length).filter (isLocalMax xs)

/-- One step of `scipy.signal._select_by_peak_distance`: if candidate
position `j` is still kept, suppress every other candidate whose peak
index is closer than `d`.  (The source's two `while` loops walk outward
until the distance reaches `d`; as the peak indices are sorted this kills
exactly the positions matched here.) -/
def killStep (peaks : List Nat) (d : Nat) (keep : Nat → Bool) (j : Nat) (k : Nat) :
    Bool :=
  if keep j then
    if decide (k ≠ j) && decide (Nat.dist (peaks.getD k 0) (peaks.getD j 0) < d) then
      false
    else keep k
  else keep k

/-- Priority of candidate position `k`: the series value at its peak. -/
def peakHeight (xs : List ℚ) (peaks : List Nat) (k : Nat) : ℚ :=
  xs.getD (peaks.getD k 0) 0

/-- Candidate positions from highest priority to lowest
(`np.argsort(priority)` traversed backwards; `argsort`'s introsort makes
the order among equal heights unspecified, here resolved stably). -/
def procOrder (xs : List ℚ) (peaks : List Nat) : List Nat :=
  (List.insertionSort
    (fun a b => peakHeight xs peaks a ≤ peakHeight xs peaks b)
    (List.range peaks.length)).reverse

/-- Which candidate positions survive distance selection. -/
def keepFun (xs : List ℚ) (peaks : List Nat) (d : Nat) : Nat → Bool :=
  (procOrder xs peaks).foldl (killStep peaks d) (fun _ => true)

/-- `scipy.signal.find_peaks(xs, distance=d)[0]`. -/
def findPeaks (xs : List ℚ) (d : Nat) : List Nat :=
  let peaks := localMaxima xs
  ((List.range peaks.length).filter (fun k => keepFun xs peaks d k)).map
    (fun k => peaks.getD k 0)

/-! ### Latest-indicator retrieval, trend, signal, and the tool `_run` -/

/-- Round half to even to an integer (the rounding Python's `round`
performs; the model rounds the exact rational). -/
def roundHalfEven (q : ℚ) : Int :=
  let f := Rat.floor q
  let r := q - (f : ℚ)
  if r < 1 / 2 then f
  else if 1 / 2 < r then f + 1
  else if f % 2 = 0 then f else f + 1

/-- Python `round(q, n)`. -/
def roundTo (n : Nat) (q : ℚ) : ℚ :=
  (roundHalfEven (q * 10 ^ n) : ℚ) / 10 ^ n

/-- The last `n` entries of a list (Python `l[-n:]`). -/
def lastK {α : Type} (n : Nat) (l : List α) : List α := l.drop (l.length - n)

/-- The dictionary `get_latest_indicators` returns (the dict of lines
148-162); `none` models the `None` fallbacks. -/
structure Indicators where
  current_price : ℚ
  sma_20 : Option ℚ
  sma_50 : Option ℚ
  sma_200 : Option ℚ
  rsi : Option ℚ
  macd : Option ℚ
  macd_20 : Option ℚ
  obv : Option ℚ
  bollinger_hband : Option ℚ
  support_levels : List ℚ
  resistance_levels : List ℚ
  volatility : Option ℚ
  momentum : Option ℚ
deriving Repr, DecidableEq

/-- The `ValueError` message of `get_latest_indicators` on a missing or
empty frame. -/
def noDataMsg : String := "Data not fetched or empty. Call fetch_and_process_data() first."

/-- `TechAnalyst.get_latest_indicators` on an already-fetched frame.
Support/resistance come from `find_peaks` over the working frame's close
column; dict entries guarded by `'col' in self.df.columns` use the frame
flags, and `volatility`/`momentum` use `notna().any()`.  A `NaN` read
(`round(NaN)`) collapses to `none`; by the dropna invariant it cannot
occur on a nonempty working frame. -/
def get_latest_indicators (f : Frame) : Except String Indicators :=
  match f.rows.getLast? with
  | none => .error noDataMsg
  | some r =>
      let closes := f.rows.map Row.close
      let peaks := findPeaks closes 20
      let troughs := findPeaks (closes.map fun v => -v) 20
      .ok {
        current_price := roundTo 2 r.close
        sma_20 := if f.hasSma20 then r.sma20.map (roundTo 2) else none
        sma_50 := if f.hasSma50 then r.sma50.map (roundTo 2) else none
        sma_200 := if f.hasSma200 then r.sma200.map (roundTo 2) else none
        rsi := if f.hasRsi then r.rsi.map (roundTo 2) else none
        macd := if f.hasMacd then r.macdDiff.map (roundTo 4) else none
        macd_20 := if f.hasMacd20 then r.macdDiff20.map (roundTo 4) else none
        obv := if f.hasObv then r.obv else none
        bollinger_hband := if f.hasBb then r.bbh.map (roundTo 2) else none
        support_levels := (lastK 3 troughs).map fun i => roundTo 2 (closes.getD i 0)
        resistance_levels := (lastK 3 peaks).map fun i => roundTo 2 (closes.getD i 0)
        volatility := if f.rows.any fun q => q.volat.isSome then r.volat.map (roundTo 4)
          else none
        momentum := if f.rows.any fun q => q.mom.isSome then r.mom.map (roundTo 2)
          else none }

/-- The mutable `TechAnalyst` object: constructor arguments plus the
`self.df` slot (`none` before `fetch_and_process_data` runs). -/
structure AnalystState where
  ticker : String
  period : String
  df : Option Frame
deriving Repr, DecidableEq

/-- `TechAnalyst.__init__`. -/
def mkAnalyst (ticker period : String) : AnalystState := ⟨ticker, period, none⟩

/-- `fetch_and_process_data` as a state transformer on the analyst. -/
def fetchM (st : AnalystState) (history : List Bar) : Except String AnalystState :=
  (fetch_and_process_data st.ticker st.period history).map fun f =>
    { st with df := some f }

/-- `get_latest_indicators` as a state transformer: it reads `self.df` and
writes nothing back. -/
def getLatestM (st : AnalystState) : Except String (Indicators × AnalystState) :=
  match st.df with
  | none => .error noDataMsg
  | some f => (get_latest_indicators f).map fun ind => (ind, st)

/-- `analyze_trend` as a state transformer.  `self.df` being `None` makes
the column test raise a `TypeError`; an empty frame with both SMA columns
raises `IndexError` from `iloc[-1]`; both are modelled as errors. -/
def analyzeTrendM (st : AnalystState) : Except String (String × AnalystState) :=
  match st.df with
  | none => .error "TypeError: argument of type NoneType is not iterable"
  | some f =>
      match analyze_trend f with
      | none => .error "IndexError: single positional indexer is out-of-bounds"
      | some s => .ok (s, st)

/-- `generate_signal` as a state transformer. -/
def generateSignalM (st : AnalystState) : Except String (String × AnalystState) :=
  match st.df with
  | none => .error "TypeError: argument of type NoneType is not iterable"
  | some f =>
      match generate_signal f with
      | none => .error "IndexError: single positional indexer is out-of-bounds"
      | some s => .ok (s, st)

/-- Outcome of `TechAnalystTool._run`: either the `error` dictionary or
the report dictionary's structured fields (indicators, trend, signal).
The `reasoning` narration string is presentational interpolation of the
same three values and is not carried. -/
inductive TechResult where
  | error : String → TechResult
  | report : Indicators → String → String → TechResult
deriving Repr, DecidableEq

/-- The error message `_run` builds when the processed frame is empty. -/
def emptyMsg (ticker period : String) : String :=
  "Could not retrieve or process data for " ++ ticker ++ " for period "
    ++ period ++ ". The dataframe is empty."

/-- `TechAnalystTool._run`: construct a fresh analyst, fetch and process,
bail out on an empty frame, otherwise retrieve indicators, trend and
signal.  Any exception is caught and returned as `error` — on the
nonempty path none can occur, and the final catch-all branch is
unreachable. -/
def techRun (ticker period : String) (history : List Bar) : TechResult :=
  match fetchM (mkAnalyst ticker period) history with
  | .error e => .error e
  | .ok st =>
      match st.df with
      | none => .error (emptyMsg ticker period)
      | some f =>
          if f.rows.isEmpty then .error (emptyMsg ticker period)
          else
            match get_latest_indicators f, analyze_trend f, generate_signal f with
            | .ok ind, some trend, some sig => .report ind trend sig
            | _, _, _ => .error "IndexError: single positional indexer is out-of-bounds"

/-- Two consecutive invocations of the tool on the same inputs (each
`_run` call builds a fresh `TechAnalyst`; the module keeps no state
between calls, so the second call starts from the same blank analyst). -/
def techRunTwice (ticker period : String) (history : List Bar) :
    TechResult × TechResult :=
  (techRun ticker period history, techRun ticker period history)

/-- Each entry strictly smaller than the next. -/
def strictlyInc : List Int → Bool
  | [] => true
  | [_] => true
  | a :: b :: rest => decide (a < b) && strictlyInc (b :: rest)

/-- Well-formedness of the raw series, from the spec's data model
(length ≥ 1, positive finite prices, non-negative volume, strictly
increasing dates).  The source performs no such validation; the predicate
is used only to state hypotheses. -/
def validSeries (bars : List Bar) : Bool :=
  !bars.isEmpty &&
  bars.all (fun b => decide (0 < b.openPrice) && decide (0 < b.highPrice) &&
    decide (0 < b.lowPrice) && decide (0 < b.close) && decide (0 ≤ b.volume)) &&
  strictlyInc (bars.map Bar.date)

/-! ### Concrete series used by witnesses and counterexamples -/

/-- A bar with all four price fields equal and volume 10. -/
def mkBar (d : Int) (c : ℚ) : Bar := ⟨d, c, c, c, c, 10⟩

/-- A valid 10-bar series. -/
def bars10 : List Bar := (List.range 10).map fun i => mkBar i (100 + i)

/-- A valid 40-bar series whose working frame is nonempty: the single tick
up at index 1 (and back down at index 2) keeps Wilder's average gain and
average loss strictly positive, so the RSI cell is defined from index 14
on, and every column is defined from index 33 on. -/
def bars40 : List Bar :=
  (List.range 40).map fun i => mkBar i (if i = 1 then 101 else 100)

/-- A nonempty 3-bar series with a duplicated then out-of-order date and a
negative close — malformed on every count the spec's validator lists. -/
def badBars : List Bar := [mkBar 5 100, mkBar 5 (-50), mkBar 3 100]

/-- A close series with two candidate peaks 9 indices apart: height 5 at
index 5 and height 7 at index 14. -/
def twoPeakSeries : List ℚ :=
  [0, 1, 2, 3, 4, 5, 4, 3, 2, 1, 0, 3, 5, 6, 7, 6, 5]

/-- A 50-bar sawtooth close series with candidate peaks every 10 bars
(indices 5, 15, 25, 35, 45, heights 5, 6, 7, 6, 5). -/
def sawtooth : List ℚ :=
  [0, 1, 2, 3, 4, 5, 4, 3, 2, 1,
   1, 2, 3, 4, 5, 6, 5, 4, 3, 2,
   2, 3, 4, 5, 6, 7, 6, 5, 4, 3,
   1, 2, 3, 4, 5, 6, 5, 4, 3, 2,
   0, 1, 2, 3, 4, 5, 4, 3, 2, 1]

/-- A frame with no indicator columns whose close column follows
`twoPeakSeries`. -/
def peaksFrame : Frame :=
  { hasSma200 := false, hasSma50 := false, hasSma20 := false, hasMacd := false,
    hasMacd20 := false, hasBb := false, hasRsi := false, hasObv := false,
    rows := twoPeakSeries.map fun c => { blankRow with close := c } }

/-- A one-row frame (its close series has no interior, hence no peaks). -/
def oneRowFrame : Frame := { peaksFrame with rows := [blankRow] }

/-! ## Theorems -/

/-- C1: for every working frame in which `rsi14`, `macd_diff(12,26,9)` and
the Bollinger bounds are all present, `generate_signal` evaluates its rules
in order with first match winning — Strong Buy iff `rsi < 30 ∧ macd > 0 ∧
close < lower band`, otherwise Buy iff `rsi < 40 ∧ macd > 0`, otherwise
Strong Sell iff `rsi > 70 ∧ macd < 0 ∧ close > upper band`, otherwise Sell
iff `rsi > 60 ∧ macd < 0`, otherwise Hold; and when any of the three
required indicator columns is absent it returns the insufficient-data
label. -/
theorem signal_rules_first_match :
    (∀ (f : Frame) (r : Row) (rsi m bl bh : ℚ),
        f.hasRsi = true → f.hasMacd = true → f.hasBb = true →
        f.rows.getLast? = some r → r.rsi = some rsi → r.macdDiff = some m →
        r.bbl = some bl → r.bbh = some bh →
        (generate_signal f = some "Strong Buy" ↔
          rsi < 30 ∧ 0 < m ∧ r.close < bl) ∧
        (generate_signal f = some "Buy" ↔
          ¬(rsi < 30 ∧ 0 < m ∧ r.close < bl) ∧ rsi < 40 ∧ 0 < m) ∧
        (generate_signal f = some "Strong Sell" ↔
          ¬(rsi < 30 ∧ 0 < m ∧ r.close < bl) ∧ ¬(rsi < 40 ∧ 0 < m) ∧
          70 < rsi ∧ m < 0 ∧ bh < r.close) ∧
        (generate_signal f = some "Sell" ↔
          ¬(rsi < 30 ∧ 0 < m ∧ r.close < bl) ∧ ¬(rsi < 40 ∧ 0 < m) ∧
          ¬(70 < rsi ∧ m < 0 ∧ bh < r.close) ∧ 60 < rsi ∧ m < 0) ∧
        (generate_signal f = some "Hold" ↔
          ¬(rsi < 30 ∧ 0 < m ∧ r.close < bl) ∧ ¬(rsi < 40 ∧ 0 < m) ∧
          ¬(70 < rsi ∧ m < 0 ∧ bh < r.close) ∧ ¬(60 < rsi ∧ m < 0))) ∧
    (∀ f : Frame, (f.hasRsi && f.hasMacd && f.hasBb) = false →
        generate_signal f = some signalInsufficient) := by
  constructor
  · intro f r rsi m bl bh h1 h2 h3 hlast hrsi hmacd hbl hbh
    simp only [generate_signal, h1, h2, h3, Bool.and_self, Bool.not_true,
      Bool.false_eq_true, if_false, hlast, Option.map_some', hrsi, hmacd, hbl,
      hbh, nlt, ngt, Option.some.injEq]
    split_ifs <;>
      simp_all [Bool.and_eq_true, decide_eq_true_eq, not_and, not_lt]
  · intro f h
    simp [generate_signal, h]

/-- C1 witness: a concrete working frame with `rsi = 25`,
`macd_diff = 0.5` and the close strictly below the lower Bollinger band
yields Strong Buy (rule 1 fires even though rule 2's condition holds). -/
theorem signal_rules_first_match_witness :
    generate_signal (signalFrame 90 25 (1/2) 95 105) = some "Strong Buy" := by
  have h := (signal_rules_first_match.1 (signalFrame 90 25 (1/2) 95 105)
    { blankRow with close := 90, rsi := some 25, macdDiff := some (1/2),
                    bbl := some 95, bbh := some 105 }
    25 (1/2) 95 105 rfl rfl rfl rfl rfl rfl rfl rfl).1
  exact h.mpr (by norm_num)

/-- C2: when `sma50` or `sma200` is missing `analyze_trend` returns the
insufficient-data label; otherwise, with `price` the latest close, the
ordered rules are evaluated first match first — `price > sma50 > sma200`
gives Strong Uptrend, else `price > sma50 ∧ sma50 < sma200` gives
Potential Uptrend, else `price < sma50 < sma200` gives Strong Downtrend,
else `price < sma50 ∧ sma50 > sma200` gives Potential Downtrend, else
Neutral; in particular `price < sma50` with `sma50 = sma200` falls
through to Neutral. -/
theorem trend_rules_first_match :
    (∀ (f : Frame) (r : Row) (a b : ℚ),
        f.hasSma50 = true → f.hasSma200 = true →
        f.rows.getLast? = some r → r.sma50 = some a → r.sma200 = some b →
        ((analyze_trend f = some "Strong Uptrend" ↔ a < r.close ∧ b < a) ∧
         (analyze_trend f = some "Potential Uptrend" ↔
           ¬(a < r.close ∧ b < a) ∧ a < r.close ∧ a < b) ∧
         (analyze_trend f = some "Strong Downtrend" ↔
           ¬(a < r.close ∧ b < a) ∧ ¬(a < r.close ∧ a < b) ∧
           r.close < a ∧ a < b) ∧
         (analyze_trend f = some "Potential Downtrend" ↔
           ¬(a < r.close ∧ b < a) ∧ ¬(a < r.close ∧ a < b) ∧
           ¬(r.close < a ∧ a < b) ∧ r.close < a ∧ b < a) ∧
         (analyze_trend f = some "Neutral" ↔
           ¬(a < r.close ∧ b < a) ∧ ¬(a < r.close ∧ a < b) ∧
           ¬(r.close < a ∧ a < b) ∧ ¬(r.close < a ∧ b < a)) ∧
         (r.close < a → a = b → analyze_trend f = some "Neutral"))) ∧
    (∀ f : Frame, (f.hasSma50 && f.hasSma200) = false →
        analyze_trend f = some trendInsufficient) := by
  constructor
  · intro f r a b h1 h2 hlast ha hb
    simp only [analyze_trend, h1, h2, Bool.and_self, Bool.not_true,
      Bool.false_eq_true, if_false, hlast, Option.map_some', ha, hb,
      nlt, ngt, Option.some.injEq]
    refine ⟨?_, ?_, ?_, ?_, ?_, ?_⟩
    · split_ifs <;> simp_all [Bool.and_eq_true, decide_eq_true_eq, not_and, not_lt] <;>
        linarith
    · split_ifs <;> simp_all [Bool.and_eq_true, decide_eq_true_eq, not_and, not_lt] <;>
        linarith
    · split_ifs <;> simp_all [Bool.and_eq_true, decide_eq_true_eq, not_and, not_lt] <;>
        linarith
    · split_ifs <;> simp_all [Bool.and_eq_true, decide_eq_true_eq, not_and, not_lt] <;>
        linarith
    · split_ifs <;> simp_all [Bool.and_eq_true, decide_eq_true_eq, not_and, not_lt] <;>
        linarith
    · intro hlt heq
      split_ifs <;>
        simp_all [Bool.and_eq_true, decide_eq_true_eq, not_and, not_lt] <;>
        linarith
  · intro f h
    simp [analyze_trend, h]

/-- C2 witness: the spec's three concrete cases — (110, 105, 100) gives
Strong Uptrend, (95, 100, 90) gives Potential Downtrend, (100, 100, 100)
gives Neutral — and the non-exhaustive gap (95, 100, 100). -/
theorem trend_rules_first_match_witness :
    analyze_trend (trendFrame 110 105 100) = some "Strong Uptrend" ∧
    analyze_trend (trendFrame 95 100 90) = some "Potential Downtrend" ∧
    analyze_trend (trendFrame 100 100 100) = some "Neutral" ∧
    analyze_trend (trendFrame 95 100 100) = some "Neutral" := by
  refine ⟨?_, ?_, ?_, ?_⟩
  · exact ((trend_rules_first_match.1 (trendFrame 110 105 100)
      { blankRow with close := 110, sma50 := some 105, sma200 := some 100 }
      105 100 rfl rfl rfl rfl rfl).1).mpr (by norm_num)
  · exact ((trend_rules_first_match.1 (trendFrame 95 100 90)
      { blankRow with close := 95, sma50 := some 100, sma200 := some 90 }
      100 90 rfl rfl rfl rfl rfl).2.2.2.1).mpr (by norm_num)
  · exact ((trend_rules_first_match.1 (trendFrame 100 100 100)
      { blankRow with close := 100, sma50 := some 100, sma200 := some 100 }
      100 100 rfl rfl rfl rfl rfl).2.2.2.2).1.mpr (by norm_num)
  · exact ((trend_rules_first_match.1 (trendFrame 95 100 100)
      { blankRow with close := 95, sma50 := some 100, sma200 := some 100 }
      100 100 rfl rfl rfl rfl rfl).2.2.2.2).2 (by norm_num) rfl

/-- C8: invoking the tool twice on an identical series yields identical
results.  Each `_run` call constructs a fresh `TechAnalyst` and the module
holds no state across calls, so the embedded run is a pure function of
ticker, period and series, and both components of `techRunTwice`
coincide. -/
theorem run_deterministic (ticker period : String) (history : List Bar) :
    (techRunTwice ticker period history).1 =
      (techRunTwice ticker period history).2 :=
  rfl

/-- C9: after the pipeline has produced the working frame, the retrieval
and classification stages (`get_latest_indicators`, `analyze_trend`,
`generate_signal`) return the analyst state unchanged whenever they
succeed, and hence running them after a successful trend call reads
exactly the same frame as running them directly. -/
theorem stages_preserve_frame :
    (∀ (st : AnalystState) (out : Indicators) (st' : AnalystState),
        getLatestM st = .ok (out, st') → st' = st) ∧
    (∀ (st : AnalystState) (out : String) (st' : AnalystState),
        analyzeTrendM st = .ok (out, st') → st' = st) ∧
    (∀ (st : AnalystState) (out : String) (st' : AnalystState),
        generateSignalM st = .ok (out, st') → st' = st) ∧
    (∀ (st : AnalystState) (t : String) (st1 : AnalystState),
        analyzeTrendM st = .ok (t, st1) →
        generateSignalM st1 = generateSignalM st ∧
        getLatestM st1 = getLatestM st ∧
        analyzeTrendM st1 = analyzeTrendM st) := by
  have htrend : ∀ (st : AnalystState) (out : String) (st' : AnalystState),
      analyzeTrendM st = .ok (out, st') → st' = st := by
    intro st out st' h
    rcases hdf : st.df with _ | f
    · simp [analyzeTrendM, hdf] at h
    · rcases ht : analyze_trend f with _ | s <;>
        simp [analyzeTrendM, hdf, ht] at h
      exact h.2.symm
  refine ⟨?_, htrend, ?_, ?_⟩
  · intro st out st' h
    rcases hdf : st.df with _ | f
    · simp [getLatestM, hdf] at h
    · rcases hg : get_latest_indicators f with e | ind <;>
        simp [getLatestM, hdf, hg, Except.map] at h
      exact h.2.symm
  · intro st out st' h
    rcases hdf : st.df with _ | f
    · simp [generateSignalM, hdf] at h
    · rcases hs : generate_signal f with _ | s <;>
        simp [generateSignalM, hdf, hs] at h
      exact h.2.symm
  · intro st t st1 h
    rw [htrend st t st1 h]
    exact ⟨rfl, rfl, rfl⟩

/-- C9 witness: on an analyst holding a concrete one-row frame,
`analyze_trend` succeeds with Neutral, and by the theorem a subsequent
signal, retrieval or trend call reads the identical frame. -/
theorem stages_preserve_frame_witness :
    generateSignalM ⟨"T", "1y", some (trendFrame 1 1 1)⟩ =
      generateSignalM ⟨"T", "1y", some (trendFrame 1 1 1)⟩ ∧
    getLatestM ⟨"T", "1y", some (trendFrame 1 1 1)⟩ =
      getLatestM ⟨"T", "1y", some (trendFrame 1 1 1)⟩ ∧
    analyzeTrendM ⟨"T", "1y", some (trendFrame 1 1 1)⟩ =
      analyzeTrendM ⟨"T", "1y", some (trendFrame 1 1 1)⟩ :=
  stages_preserve_frame.2.2.2 ⟨"T", "1y", some (trendFrame 1 1 1)⟩ "Neutral"
    ⟨"T", "1y", some (trendFrame 1 1 1)⟩ (by with_unfolding_all rfl)

/-- C4 counterexample: a nonempty series with a duplicated then
out-of-order date and a negative close violates every validator rule the
claim lists, yet `fetch_and_process_data` accepts it (no `InputError` is
raised). -/
theorem no_input_validation_counterexample :
    validSeries badBars = false ∧
    (fetch_and_process_data "T" "1y" badBars).isOk = true := by
  constructor
  · with_unfolding_all decide
  · with_unfolding_all decide

/-- C4 amended: the source performs no validation of prices, volumes or
date ordering.  `fetch_and_process_data` fails exactly when the input
sequence is empty (raising the wrapped no-data `ValueError`), and on any
nonempty sequence — malformed or not — it succeeds, handing the rows to
indicator computation unchanged. -/
theorem fetch_fails_only_on_empty (ticker period : String) (history : List Bar) :
    (history = [] →
      fetch_and_process_data ticker period history =
        .error ("Error processing data for " ++ ticker ++
          ": No data found for ticker " ++ ticker ++ " and period " ++ period)) ∧
    (history ≠ [] →
      fetch_and_process_data ticker period history = .ok (workingFrame history)) := by
  constructor <;> intro h <;>
    simp [fetch_and_process_data, h, List.isEmpty_iff]

/-- C4 amended witness: the empty series errors; the malformed nonempty
series is processed. -/
theorem fetch_fails_only_on_empty_witness :
    fetch_and_process_data "T" "1y" [] =
      .error ("Error processing data for T: No data found for ticker T and period 1y") ∧
    fetch_and_process_data "T" "1y" badBars = .ok (workingFrame badBars) :=
  ⟨(fetch_fails_only_on_empty "T" "1y" []).1 rfl,
   (fetch_fails_only_on_empty "T" "1y" badBars).2 (by decide)⟩

/-- Any row of index less than 20 has a `NaN` volatility cell. -/
theorem volCell_eq_none (cs : List ℚ) {i : Nat} (h : i < 20) :
    volCell cs i = none := by
  simp only [volCell, ite_eq_right_iff]
  intro h20
  omega

/-- C5 counterexample: on a valid 10-bar series the tool returns the
empty-dataframe error dictionary — no indicator set (hence no
`current_price`), no trend label and no signal label are produced. -/
theorem ten_bar_counterexample :
    validSeries bars10 = true ∧
    techRun "T" "1y" bars10 = .error (emptyMsg "T" "1y") := by
  constructor
  · with_unfolding_all decide
  · with_unfolding_all decide

/-- C5 amended: a valid series of exactly 10 bars never reaches trend or
signal classification: because `len(df) < 20` the volatility and momentum
columns are assigned all-`NaN`, `dropna()` then removes every row, and
`_run` answers with the empty-dataframe error value (it does not raise). -/
theorem ten_bars_empty_frame (ticker period : String) (bars : List Bar)
    (hlen : bars.length = 10) :
    (workingFrame bars).rows = [] ∧
    techRun ticker period bars = .error (emptyMsg ticker period) := by
  have hrows : (workingFrame bars).rows = [] := by
    rw [workingFrame, dropna, buildFrame]
    simp only [List.filter_eq_nil_iff, List.mem_map, List.mem_range]
    rintro r ⟨i, hi, rfl⟩
    rw [hlen] at hi
    simp [rowComplete, mkRow, volCell_eq_none _ (by omega : i < 20)]
  refine ⟨hrows, ?_⟩
  have hne : bars.isEmpty = false := by
    cases bars with
    | nil => simp at hlen
    | cons a l => rfl
  rw [techRun, fetchM, mkAnalyst, fetch_and_process_data]
  simp only [hne, Bool.false_eq_true, if_false]
  simp [Except.map, hrows, List.isEmpty_iff]

/-- C5 amended witness: the concrete valid 10-bar series produces the
empty working frame and the error result. -/
theorem ten_bars_empty_frame_witness :
    bars10.length = 10 ∧
    (workingFrame bars10).rows = [] ∧
    techRun "T" "1y" bars10 = .error (emptyMsg "T" "1y") :=
  ⟨by decide, ten_bars_empty_frame "T" "1y" bars10 (by decide)⟩

/-- `rowComplete` reads only the column flags, which `dropna` keeps. -/
theorem rowComplete_dropna (f : Frame) (r : Row) :
    rowComplete (dropna f) r = rowComplete f r := rfl

/-- Every row surviving `dropna` is complete. -/
theorem workingFrame_rows_complete (bars : List Bar) :
    ∀ r ∈ (workingFrame bars).rows, rowComplete (buildFrame bars) r = true := by
  intro r hr
  exact (List.mem_filter.mp hr).2

/-- Every row of the working frame is the processed row of some index of
the input series. -/
theorem workingFrame_rows_shape (bars : List Bar) :
    ∀ r ∈ (workingFrame bars).rows, ∃ i, i < bars.length ∧
      r = mkRow (bars.map Bar.close) (bars.map Bar.volume) i := by
  intro r hr
  have hr0 : r ∈ (buildFrame bars).rows := List.mem_of_mem_filter hr
  simp only [buildFrame, List.mem_map, List.mem_range] at hr0
  obtain ⟨i, hi, rfl⟩ := hr0
  exact ⟨i, hi, rfl⟩

/-- The column flags of the working frame are the gating conditions of the
source's guards, as functions of the raw length. -/
theorem workingFrame_flags (bars : List Bar) :
    (workingFrame bars).hasSma200 = decide (200 ≤ bars.length) ∧
    (workingFrame bars).hasSma50 = decide (50 ≤ bars.length) ∧
    (workingFrame bars).hasSma20 = decide (20 ≤ bars.length) ∧
    (workingFrame bars).hasMacd = decide (26 ≤ bars.length) ∧
    (workingFrame bars).hasMacd20 = decide (20 ≤ bars.length) ∧
    (workingFrame bars).hasBb = decide (20 ≤ bars.length) ∧
    (workingFrame bars).hasRsi = decide (14 ≤ bars.length) ∧
    (workingFrame bars).hasObv = true :=
  ⟨rfl, rfl, rfl, rfl, rfl, rfl, rfl, rfl⟩

/-- C10: the working frame is the `dropna` of the augmented frame, so every
retained row is free of missing values in every existing column, and in
particular the latest row — the one every downstream `iloc[-1]` read uses —
has a defined value in every existing column: no classification rule ever
compares against a missing value. -/
theorem working_frame_no_missing_values (bars : List Bar) :
    ((workingFrame bars).rows.all fun r =>
      rowComplete (workingFrame bars) r) = true ∧
    ((workingFrame bars).rows.getLast?.all fun r =>
      rowComplete (workingFrame bars) r) = true := by
  constructor
  · rw [List.all_eq_true]
    intro r hr
    exact workingFrame_rows_complete bars r hr
  · cases hl : (workingFrame bars).rows.getLast? with
    | none => rfl
    | some r =>
        have hr : r ∈ (workingFrame bars).rows :=
          List.mem_of_mem_getLast? (by rw [hl]; rfl)
        simpa [Option.all] using workingFrame_rows_complete bars r hr

/-- Unpacked completeness of a working-frame row, with each column flag
replaced by its gating condition on the raw length. -/
theorem rowComplete_fields {bars : List Bar} {r : Row}
    (h : rowComplete (buildFrame bars) r = true) :
    (200 ≤ bars.length → r.sma200.isSome = true) ∧
    (50 ≤ bars.length → r.sma50.isSome = true) ∧
    (20 ≤ bars.length → r.sma20.isSome = true) ∧
    (26 ≤ bars.length → r.macdDiff.isSome = true) ∧
    (20 ≤ bars.length → r.macdDiff20.isSome = true) ∧
    (20 ≤ bars.length → r.bbh.isSome = true) ∧
    (14 ≤ bars.length → r.rsi.isSome = true) ∧
    r.volat.isSome = true ∧ r.mom.isSome = true := by
  simp only [rowComplete, buildFrame, Bool.and_eq_true, Bool.or_eq_true,
    Bool.not_eq_true', decide_eq_false_iff_not] at h
  refine ⟨fun hf => ?_, fun hf => ?_, fun hf => ?_, fun hf => ?_, fun hf => ?_,
    fun hf => ?_, fun hf => ?_, ?_, ?_⟩ <;> simp_all

/-- C3: whenever a nonempty working frame is produced from a valid series
of exactly N bars and the indicator dictionary is assembled, each entry is
present (not `None`) exactly when N meets the indicator's minimum window:
`sma_200` iff N ≥ 200, `sma_50` iff N ≥ 50, `rsi` iff N ≥ 14, the MACD
difference iff N ≥ 26, and the Bollinger band, 20-bar annualised
volatility, 20-bar momentum and `sma_20` entries iff N ≥ 20. -/
theorem window_gating (bars : List Bar)
    (hval : validSeries bars = true)
    (hne : (workingFrame bars).rows ≠ []) :
    ((get_latest_indicators (workingFrame bars)).toOption.all fun ind =>
      (ind.sma_200.isSome == decide (200 ≤ bars.length)) &&
      (ind.sma_50.isSome == decide (50 ≤ bars.length)) &&
      (ind.sma_20.isSome == decide (20 ≤ bars.length)) &&
      (ind.rsi.isSome == decide (14 ≤ bars.length)) &&
      (ind.macd.isSome == decide (26 ≤ bars.length)) &&
      (ind.bollinger_hband.isSome == decide (20 ≤ bars.length)) &&
      (ind.volatility.isSome == decide (20 ≤ bars.length)) &&
      (ind.momentum.isSome == decide (20 ≤ bars.length))) = true := by
  cases hl : (workingFrame bars).rows.getLast? with
  | none =>
      exact absurd (List.getLast?_isSome.mpr hne) (by rw [hl]; simp)
  | some r =>
      have hr : r ∈ (workingFrame bars).rows :=
        List.mem_of_mem_getLast? (by rw [hl]; rfl)
      have hc := rowComplete_fields (workingFrame_rows_complete bars r hr)
      obtain ⟨i, hi, hri⟩ := workingFrame_rows_shape bars r hr
      have h20i : 20 ≤ i := by
        have hv : r.volat.isSome = true := hc.2.2.2.2.2.2.2.1
        rw [hri] at hv
        simp only [mkRow, volCell] at hv
        by_contra hcon
        rw [if_neg hcon] at hv
        simp at hv
      have h20 : 20 ≤ bars.length := le_of_lt (lt_of_le_of_lt h20i hi)
      have hany : ((workingFrame bars).rows.any fun q => q.volat.isSome) = true :=
        List.any_eq_true.mpr ⟨r, hr, hc.2.2.2.2.2.2.2.1⟩
      have hanym : ((workingFrame bars).rows.any fun q => q.mom.isSome) = true :=
        List.any_eq_true.mpr ⟨r, hr, hc.2.2.2.2.2.2.2.2⟩
      obtain ⟨f200, f50, f20, fm, fm20, fbb, frsi, fobv⟩ := workingFrame_flags bars
      simp only [get_latest_indicators, hl, Except.toOption, Option.all,
        f200, f50, f20, fm, fm20, fbb, frsi, hany, hanym,
        Bool.and_eq_true, beq_iff_eq]
      refine ⟨⟨⟨⟨⟨⟨⟨?_, ?_⟩, ?_⟩, ?_⟩, ?_⟩, ?_⟩, ?_⟩, ?_⟩
      · by_cases hw : 200 ≤ bars.length <;>
          simp [hw, hc.1, Option.isSome_map]
      · by_cases hw : 50 ≤ bars.length <;>
          simp [hw, hc.2.1, Option.isSome_map]
      · simp [h20, hc.2.2.1 h20, Option.isSome_map]
      · have hw : 14 ≤ bars.length := by omega
        simp [hw, hc.2.2.2.2.2.2.1 hw, Option.isSome_map]
      · by_cases hw : 26 ≤ bars.length <;>
          simp [hw, hc.2.2.2.1, Option.isSome_map]
      · simp [h20, hc.2.2.2.2.2.1 h20, Option.isSome_map]
      · simp [h20, hc.2.2.2.2.2.2.2.1, Option.isSome_map]
      · simp [h20, hc.2.2.2.2.2.2.2.2, Option.isSome_map]

/-- C3 witness: the valid 40-bar series has a nonempty working frame, so
the gating equivalences hold there (N = 40: `sma_200` and `sma_50` absent,
all 20- and 26-bar indicators present). -/
theorem window_gating_witness :
    ((get_latest_indicators (workingFrame bars40)).toOption.all fun ind =>
      (ind.sma_200.isSome == decide (200 ≤ bars40.length)) &&
      (ind.sma_50.isSome == decide (50 ≤ bars40.length)) &&
      (ind.sma_20.isSome == decide (20 ≤ bars40.length)) &&
      (ind.rsi.isSome == decide (14 ≤ bars40.length)) &&
      (ind.macd.isSome == decide (26 ≤ bars40.length)) &&
      (ind.bollinger_hband.isSome == decide (20 ≤ bars40.length)) &&
      (ind.volatility.isSome == decide (20 ≤ bars40.length)) &&
      (ind.momentum.isSome == decide (20 ≤ bars40.length))) = true :=
  window_gating bars40 (by with_unfolding_all decide)
    (by with_unfolding_all decide)

/-- A candidate can only be suppressed by `killStep`, never revived. -/
theorem killStep_le (peaks : List Nat) (d : Nat) (keep : Nat → Bool) (j k : Nat)
    (h : killStep peaks d keep j k = true) : keep k = true := by
  unfold killStep at h
  by_cases h1 : keep j = true
  · rw [if_pos h1] at h
    by_cases h2 : (decide (k ≠ j) &&
        decide (Nat.dist (peaks.getD k 0) (peaks.getD j 0) < d)) = true
    · rw [if_pos h2] at h
      exact absurd h (by simp)
    · rwa [if_neg h2] at h
  · rwa [if_neg h1] at h

/-- A kept position suppresses every distinct position within `d`. -/
theorem killStep_kills (peaks : List Nat) (d : Nat) (keep : Nat → Bool) (j k : Nat)
    (hj : keep j = true) (hk : k ≠ j)
    (hd : Nat.dist (peaks.getD k 0) (peaks.getD j 0) < d) :
    killStep peaks d keep j k = false := by
  unfold killStep
  rw [if_pos hj, if_pos]
  simp only [Bool.and_eq_true, decide_eq_true_eq]
  exact ⟨hk, hd⟩

/-- Suppression is permanent along the whole selection pass. -/
theorem foldl_killStep_le (peaks : List Nat) (d : Nat) :
    ∀ (l : List Nat) (keep : Nat → Bool) (k : Nat),
      (l.foldl (killStep peaks d) keep) k = true → keep k = true := by
  intro l
  induction l with
  | nil => exact fun keep k h => h
  | cons j t ih => exact fun keep k h => killStep_le _ _ _ _ _ (ih _ k h)

/-- If position `k` is kept and every conflicting position is already
suppressed, one further step keeps `k` and keeps the conflicters
suppressed. -/
theorem killStep_preserves (peaks : List Nat) (d k : Nat) (keep : Nat → Bool)
    (j : Nat) (hk : keep k = true)
    (hdead : ∀ i, i ≠ k → Nat.dist (peaks.getD i 0) (peaks.getD k 0) < d →
      keep i = false) :
    killStep peaks d keep j k = true ∧
    ∀ i, i ≠ k → Nat.dist (peaks.getD i 0) (peaks.getD k 0) < d →
      killStep peaks d keep j i = false := by
  constructor
  · unfold killStep
    split_ifs with h1 h2
    · exfalso
      simp only [Bool.and_eq_true, decide_eq_true_eq] at h2
      have hj := hdead j (Ne.symm h2.1) (by rw [Nat.dist_comm]; exact h2.2)
      rw [hj] at h1
      exact absurd h1 (by simp)
    · exact hk
    · exact hk
  · intro i hi hdist
    cases hh : killStep peaks d keep j i with
    | false => rfl
    | true => exact absurd (killStep_le _ _ _ _ _ hh) (by rw [hdead i hi hdist]; simp)

/-- The keep/suppress invariant around position `k` survives the rest of
the selection pass. -/
theorem foldl_killStep_preserves (peaks : List Nat) (d k : Nat) :
    ∀ (l : List Nat) (keep : Nat → Bool),
      keep k = true →
      (∀ i, i ≠ k → Nat.dist (peaks.getD i 0) (peaks.getD k 0) < d →
        keep i = false) →
      (l.foldl (killStep peaks d) keep) k = true := by
  intro l
  induction l with
  | nil => exact fun keep hk _ => hk
  | cons j t ih =>
      intro keep hk hdead
      obtain ⟨h1, h2⟩ := killStep_preserves peaks d k keep j hk hdead
      exact ih _ h1 h2

/-- Two distinct positions both surviving the selection pass are at least
`d` apart: the first of the two to be processed was still kept at its own
step (suppression is permanent), and that step suppressed the other. -/
theorem keepFun_spacing (xs : List ℚ) (peaks : List Nat) (d : Nat) (k₀ k₁ : Nat)
    (h₀ : keepFun xs peaks d k₀ = true) (h₁ : keepFun xs peaks d k₁ = true)
    (hne : k₀ ≠ k₁) (hmem : k₀ < peaks.length) :
    d ≤ Nat.dist (peaks.getD k₀ 0) (peaks.getD k₁ 0) := by
  by_contra hlt
  push_neg at hlt
  have hk₀mem : k₀ ∈ procOrder xs peaks := by
    rw [procOrder, List.mem_reverse, (List.perm_insertionSort _ _).mem_iff]
    exact List.mem_range.mpr hmem
  obtain ⟨l₁, l₂, hsplit⟩ := List.append_of_mem hk₀mem
  rw [keepFun, hsplit, List.foldl_append, List.foldl_cons] at h₀ h₁
  have hk0mid : killStep peaks d (l₁.foldl (killStep peaks d) fun _ => true) k₀ k₀
      = true := foldl_killStep_le peaks d l₂ _ k₀ h₀
  have hk0pre : (l₁.foldl (killStep peaks d) fun _ => true) k₀ = true :=
    killStep_le _ _ _ _ _ hk0mid
  have hkill : killStep peaks d (l₁.foldl (killStep peaks d) fun _ => true) k₀ k₁
      = false :=
    killStep_kills peaks d _ k₀ k₁ hk0pre (Ne.symm hne)
      (by rw [Nat.dist_comm]; exact hlt)
  have hfin := foldl_killStep_le peaks d l₂ _ k₁ h₁
  rw [hkill] at hfin
  exact absurd hfin (by simp)

/-- Minimum-spacing guarantee of the detector, for peaks of any series
(applying it to the negated series gives the guarantee for troughs). -/
theorem findPeaks_spacing (xs : List ℚ) (d : Nat) :
    ∀ p ∈ findPeaks xs d, ∀ q ∈ findPeaks xs d, p ≠ q → d ≤ Nat.dist p q := by
  intro p hp q hq hne
  simp only [findPeaks, List.mem_map, List.mem_filter, List.mem_range] at hp hq
  obtain ⟨k₀, ⟨hk₀, hkeep₀⟩, rfl⟩ := hp
  obtain ⟨k₁, ⟨hk₁, hkeep₁⟩, rfl⟩ := hq
  exact keepFun_spacing xs _ d k₀ k₁ hkeep₀ hkeep₁
    (fun he => hne (by rw [he])) hk₀

/-- The processing order starts with the position of strictly greatest
priority. -/
theorem procOrder_head_tallest (xs : List ℚ) (peaks : List Nat) (k : Nat)
    (hk : k < peaks.length)
    (htall : ∀ i, i < peaks.length → i ≠ k →
      peakHeight xs peaks i < peakHeight xs peaks k) :
    ∃ rest, procOrder xs peaks = k :: rest := by
  have hkmem : k ∈ procOrder xs peaks := by
    rw [procOrder, List.mem_reverse, (List.perm_insertionSort _ _).mem_iff]
    exact List.mem_range.mpr hk
  obtain ⟨h, t, ho⟩ : ∃ h t, procOrder xs peaks = h :: t := by
    cases ho : procOrder xs peaks with
    | nil => rw [ho] at hkmem; exact absurd hkmem (by simp)
    | cons h t => exact ⟨h, t, rfl⟩
  refine ⟨t, ?_⟩
  by_cases hhk : h = k
  · rw [ho, hhk]
  · exfalso
    have hmem : h ∈ procOrder xs peaks := by
      rw [ho]
      exact List.mem_cons_self h t
    have hhlt : h < peaks.length := by
      rw [procOrder, List.mem_reverse, (List.perm_insertionSort _ _).mem_iff,
        List.mem_range] at hmem
      exact hmem
    have hkt : k ∈ t := by
      rw [ho] at hkmem
      rcases List.mem_cons.mp hkmem with he | ht
      · exact absurd he.symm hhk
      · exact ht
    have hpair : (procOrder xs peaks).Pairwise
        (fun a b => peakHeight xs peaks b ≤ peakHeight xs peaks a) := by
      rw [procOrder, List.pairwise_reverse]
      haveI : IsTotal Nat (fun a b => peakHeight xs peaks a ≤ peakHeight xs peaks b) :=
        ⟨fun a b => le_total _ _⟩
      haveI : IsTrans Nat (fun a b => peakHeight xs peaks a ≤ peakHeight xs peaks b) :=
        ⟨fun a b c hab hbc => le_trans hab hbc⟩
      exact List.sorted_insertionSort _ _
    rw [ho] at hpair
    have hle : peakHeight xs peaks k ≤ peakHeight xs peaks h :=
      List.rel_of_pairwise_cons hpair hkt
    exact absurd hle (not_le.mpr (htall h hhlt hhk))

/-- A candidate of strictly greatest priority always survives selection:
it is processed first, suppressing all conflicters, and nothing processed
later can suppress it. -/
theorem findPeaks_keeps_tallest (xs : List ℚ) (d k : Nat)
    (hk : k < (localMaxima xs).length)
    (htall : ∀ i, i < (localMaxima xs).length → i ≠ k →
      peakHeight xs (localMaxima xs) i < peakHeight xs (localMaxima xs) k) :
    (localMaxima xs).getD k 0 ∈ findPeaks xs d := by
  obtain ⟨rest, horder⟩ := procOrder_head_tallest xs (localMaxima xs) k hk htall
  have hkeep : keepFun xs (localMaxima xs) d k = true := by
    rw [keepFun, horder, List.foldl_cons]
    apply foldl_killStep_preserves
    · unfold killStep
      rw [if_pos rfl, if_neg]
      simp
    · intro i hi hd
      unfold killStep
      rw [if_pos rfl, if_pos]
      simp only [Bool.and_eq_true, decide_eq_true_eq]
      exact ⟨hi, hd⟩
  simp only [findPeaks, List.mem_map, List.mem_filter, List.mem_range]
  exact ⟨k, ⟨hk, hkeep⟩, rfl⟩

/-- C6 counterexample: on `twoPeakSeries` the candidate peaks are indices
5 (height 5) and 14 (height 7), 9 indices apart, so they conflict under
the 20-bar spacing; the detector keeps the taller, later candidate 14 —
not the earliest-discovered candidate 5 of a left-to-right pass. -/
theorem peak_selection_not_earliest :
    localMaxima twoPeakSeries = [5, 14] ∧
    findPeaks twoPeakSeries 20 = [14] := by
  constructor
  · with_unfolding_all decide
  · with_unfolding_all decide

/-- C6 amended: the detector returns no two extrema of the same kind fewer
than `d` indices apart; but when candidates conflict the survivor is
chosen by priority (series height), highest first — a candidate of
strictly greatest height is always kept — rather than by keeping the
earliest-discovered candidate of a left-to-right pass. -/
theorem peak_spacing_and_priority :
    (∀ (xs : List ℚ) (d : Nat), ∀ p ∈ findPeaks xs d, ∀ q ∈ findPeaks xs d,
        p ≠ q → d ≤ Nat.dist p q) ∧
    (∀ (xs : List ℚ) (d k : Nat), k < (localMaxima xs).length →
        (∀ i, i < (localMaxima xs).length → i ≠ k →
          peakHeight xs (localMaxima xs) i < peakHeight xs (localMaxima xs) k) →
        (localMaxima xs).getD k 0 ∈ findPeaks xs d) :=
  ⟨findPeaks_spacing, findPeaks_keeps_tallest⟩

/-- C6 witness: on the 50-bar sawtooth (candidate peaks every 10 bars) the
returned peaks 5 and 25 are 20 apart, and the strictly tallest candidate
(index 25, height 7, position 2 of 5) is kept. -/
theorem peak_spacing_and_priority_witness :
    (20 ≤ Nat.dist 5 25) ∧ 25 ∈ findPeaks sawtooth 20 := by
  constructor
  · exact peak_spacing_and_priority.1 sawtooth 20 5 (by with_unfolding_all decide)
      25 (by with_unfolding_all decide) (by decide)
  · have h : (localMaxima sawtooth).getD 2 0 = 25 := by with_unfolding_all decide
    rw [← h]
    exact peak_spacing_and_priority.2 sawtooth 20 2 (by with_unfolding_all decide)
      (by with_unfolding_all decide)

/-- The candidate peaks are listed in strictly ascending index order. -/
theorem localMaxima_pairwise (xs : List ℚ) :
    (localMaxima xs).Pairwise (· < ·) :=
  (List.pairwise_lt_range xs.length).filter _

/-- Reading a strictly ascending list at ascending positions is strictly
ascending. -/
theorem getD_strictMono {l : List Nat} (hl : l.Pairwise (· < ·)) {a b : Nat}
    (ha : a < l.length) (hb : b < l.length) (hab : a < b) :
    l.getD a 0 < l.getD b 0 := by
  have h := List.pairwise_iff_get.mp hl ⟨a, ha⟩ ⟨b, hb⟩ hab
  rw [List.getD_eq_getElem l 0 ha, List.getD_eq_getElem l 0 hb]
  simpa using h

/-- The returned peaks are in strictly ascending (chronological) index
order. -/
theorem findPeaks_pairwise (xs : List ℚ) (d : Nat) :
    (findPeaks xs d).Pairwise (· < ·) := by
  simp only [findPeaks, List.pairwise_map]
  have hpos : ((List.range (localMaxima xs).length).filter
      (fun k => keepFun xs (localMaxima xs) d k)).Pairwise (· < ·) :=
    (List.pairwise_lt_range _).filter _
  refine hpos.imp_of_mem ?_
  intro a b ha hb hab
  have haL : a < (localMaxima xs).length :=
    List.mem_range.mp (List.mem_of_mem_filter ha)
  have hbL : b < (localMaxima xs).length :=
    List.mem_range.mp (List.mem_of_mem_filter hb)
  exact getD_strictMono (localMaxima_pairwise xs) haL hbL hab

/-- Python `l[-n:]` is a sublist. -/
theorem lastK_sublist {α : Type} (n : Nat) (l : List α) :
    (lastK n l).Sublist l :=
  List.drop_sublist _ _

/-- Python `l[-n:]` has length `min n (length l)`. -/
theorem lastK_length {α : Type} (n : Nat) (l : List α) :
    (lastK n l).length = min n l.length := by
  simp only [lastK, List.length_drop]
  omega

/-- C7: whenever the indicator dictionary is assembled, `resistance_levels`
is the close price (rounded for display) at each of the last 3 detected
peaks and `support_levels` the same for the last 3 detected troughs, both
in chronological (ascending-index) order; with fewer than 3 extrema of a
kind the list is correspondingly shorter (length `min 3 (number of
extrema)`), with zero extrema it is empty, and a frame with rows never
makes the retrieval fail. -/
theorem support_resistance_last3 (f : Frame) :
    ((get_latest_indicators f).toOption.all fun ind =>
      decide (ind.resistance_levels =
        (lastK 3 (findPeaks (f.rows.map Row.close) 20)).map
          (fun i => roundTo 2 ((f.rows.map Row.close).getD i 0))) &&
      decide (ind.support_levels =
        (lastK 3 (findPeaks ((f.rows.map Row.close).map (fun v => -v)) 20)).map
          (fun i => roundTo 2 ((f.rows.map Row.close).getD i 0))) &&
      decide (ind.resistance_levels.length =
        min 3 (findPeaks (f.rows.map Row.close) 20).length) &&
      decide (ind.support_levels.length =
        min 3 (findPeaks ((f.rows.map Row.close).map (fun v => -v)) 20).length) &&
      decide (findPeaks (f.rows.map Row.close) 20 = [] →
        ind.resistance_levels = []) &&
      decide (findPeaks ((f.rows.map Row.close).map (fun v => -v)) 20 = [] →
        ind.support_levels = [])) = true ∧
    (lastK 3 (findPeaks (f.rows.map Row.close) 20)).Pairwise (· < ·) ∧
    (lastK 3 (findPeaks ((f.rows.map Row.close).map (fun v => -v)) 20)).Pairwise
      (· < ·) ∧
    (f.rows ≠ [] → (get_latest_indicators f).isOk = true) := by
  refine ⟨?_, (findPeaks_pairwise _ _).sublist (lastK_sublist _ _),
    (findPeaks_pairwise _ _).sublist (lastK_sublist _ _), ?_⟩
  · cases hl : f.rows.getLast? with
    | none => simp [get_latest_indicators, hl, Except.toOption]
    | some r =>
        simp only [get_latest_indicators, hl, Except.toOption, Option.all,
          Bool.and_eq_true, decide_eq_true_eq]
        refine ⟨⟨⟨⟨⟨trivial, trivial⟩, ?_⟩, ?_⟩, ?_⟩, ?_⟩
        · rw [List.length_map, lastK_length]
        · rw [List.length_map, lastK_length]
        · intro he
          rw [he]
          rfl
        · intro he
          rw [he]
          rfl
  · intro hne
    cases hl : f.rows.getLast? with
    | none =>
        exact absurd (List.getLast?_isSome.mpr hne) (by rw [hl]; simp)
    | some r =>
        simp [get_latest_indicators, hl, Except.isOk, Except.toBool]

/-- C7 witness: on a frame whose closes follow `twoPeakSeries` the
retrieval succeeds, and on a one-row frame (no extrema at all) the
resistance list is empty rather than an error. -/
theorem support_resistance_last3_witness :
    (get_latest_indicators peaksFrame).isOk = true ∧
    ((get_latest_indicators oneRowFrame).toOption.all fun ind =>
      decide (ind.resistance_levels =
        (lastK 3 (findPeaks (oneRowFrame.rows.map Row.close) 20)).map
          (fun i => roundTo 2 ((oneRowFrame.rows.map Row.close).getD i 0))) &&
      decide (ind.support_levels =
        (lastK 3 (findPeaks ((oneRowFrame.rows.map Row.close).map (fun v => -v)) 20)).map
          (fun i => roundTo 2 ((oneRowFrame.rows.map Row.close).getD i 0))) &&
      decide (ind.resistance_levels.length =
        min 3 (findPeaks (oneRowFrame.rows.map Row.close) 20).length) &&
      decide (ind.support_levels.length =
        min 3 (findPeaks ((oneRowFrame.rows.map Row.close).map (fun v => -v)) 20).length) &&
      decide (findPeaks (oneRowFrame.rows.map Row.close) 20 = [] →
        ind.resistance_levels = []) &&
      decide (findPeaks ((oneRowFrame.rows.map Row.close).map (fun v => -v)) 20 = [] →
        ind.support_levels = [])) = true :=
  ⟨(support_resistance_last3 peaksFrame).2.2.2 (by with_unfolding_all decide),
   (support_resistance_last3 oneRowFrame).1⟩

end QuantCrew
